import Mathlib

/-!
Shallow embedding of the mcp-z/client connection lifecycle and OAuth
discovery logic, with theorems settling the frozen claims about the
registry, process spawner, transport inference, PKCE generation and the
OAuth discovery and refresh paths.
-/

namespace Mcpz

/-! ### Transport inference (src/connection/connect-client.ts) -/

/-- Transport type union from src/types.ts (TransportType). -/
inductive TransportType where
  | stdio
  | http
  | sseIde
  | wsIde
  | sdk
deriving DecidableEq

/-- Characters a URL scheme may contain after its first letter (RFC 3986). -/
def isSchemeChar (c : Char) : Bool :=
  c.isAlpha || c.isDigit || c = '+' || c = '-' || c = '.'

/-- Split a character list at the first occurrence of the three
characters colon slash slash, returning the part before and the part
after it; the first argument accumulates the scanned part in reverse. -/
def splitSchemeAux : List Char → List Char → Option (List Char × List Char)
  | _, [] => none
  | acc, ':' :: '/' :: '/' :: rest => some (acc.reverse, rest)
  | acc, c :: rest => splitSchemeAux (c :: acc) rest

/-- Well-formedness of a scheme: nonempty, starting with a letter, made
of scheme characters. -/
def validScheme (scheme : List Char) : Bool :=
  ¬ scheme.isEmpty && scheme.all isSchemeChar && (scheme.headD 'a').isAlpha

/-- Model of the JavaScript expression (new URL u).protocol for
hierarchical scheme://rest URLs: the lowercased scheme followed by a
colon, or none when the URL constructor would throw. -/
def urlProtocol (u : String) : Option String :=
  match splitSchemeAux [] u.toList with
  | some (scheme, rest) =>
      if validScheme scheme && ¬ rest.isEmpty then
        some (String.mk (scheme.map Char.toLower) ++ ":")
      else none
  | none => none

/-- Server-entry fields consulted by transport inference. -/
structure EntryConfig where
  type? : Option TransportType
  url? : Option String

/-- Transport actually used by the connection negotiator. -/
inductive InferredTransport where
  | stdio
  | http
deriving DecidableEq

/-- Translation of inferTransportType from
src/connection/connect-client.ts (lines 76-109). An error value models a
thrown configuration error, including a URL string the URL constructor
rejects. -/
def inferTransportType (config : EntryConfig) : Except String InferredTransport :=
  match config.type? with
  | some t =>
      match config.url? with
      | some u =>
          match urlProtocol u with
          | none => .error "Invalid URL"
          | some protocol =>
              if (protocol = "http:" ∨ protocol = "https:") ∧
                  t ≠ .http ∧ t ≠ .sseIde then
                .error "Conflicting transport"
              else if t = .http ∨ t = .sseIde then .ok .http
              else if t = .stdio then .ok .stdio
              else .error "Unsupported transport type"
      | none =>
          if t = .http ∨ t = .sseIde then .ok .http
          else if t = .stdio then .ok .stdio
          else .error "Unsupported transport type"
  | none =>
      match config.url? with
      | some u =>
          match urlProtocol u with
          | none => .error "Invalid URL"
          | some protocol =>
              if protocol = "http:" ∨ protocol = "https:" then .ok .http
              else .error ("Unsupported URL protocol: " ++ protocol)
      | none => .ok .stdio

/-! ### Registry shutdown ordering (src/spawn/spawn-servers.ts, close) -/

/-- One tracked client in the registry client set; closeFails models a
client whose close() rejects (the registry swallows the rejection). -/
structure TrackedClient where
  id : Nat
  closeFails : Bool
deriving DecidableEq

/-- Result of ServerProcess.close for one process
(src/spawn/spawn-server.ts). -/
structure StopResult where
  timedOut : Bool
  killed : Bool
deriving DecidableEq

/-- One tracked server process together with the outcome its close call
will produce. -/
structure TrackedServer where
  id : Nat
  stopOutcome : StopResult
deriving DecidableEq

/-- Observable call recorded while the registry shuts down. -/
inductive CloseEvent where
  | clientClose (id : Nat)
  | procSignal (id : Nat)
deriving DecidableEq

/-- Aggregate result of registry close (CloseResult in
src/spawn/spawn-servers.ts). -/
structure CloseResult where
  timedOut : Bool
  killedCount : Nat
deriving DecidableEq

/-- Translation of the registry close function
(src/spawn/spawn-servers.ts lines 441-468): await the close of every
tracked client, swallowing individual failures, then close every server
process, aggregating whether any timed out and how many were killed.
The returned list is the observable order of client closes and process
signals. -/
def registryClose (clients : List TrackedClient) (servers : List TrackedServer) :
    List CloseEvent × CloseResult :=
  let clientEvents := clients.map (fun c => CloseEvent.clientClose c.id)
  if servers.isEmpty then
    (clientEvents, ⟨false, 0⟩)
  else
    let results := servers.map (fun s => s.stopOutcome)
    (clientEvents ++ servers.map (fun s => CloseEvent.procSignal s.id),
      ⟨results.any (fun r => r.timedOut),
        (results.filter (fun r => r.killed)).length⟩)

/-! ### Shared stdio client leases (src/spawn/spawn-servers.ts, connect)

The registry keeps one bookkeeping entry per stdio server name in
sharedStdioClients, a record of the shared client, the pending connecting
promise and a reference count. The model below tracks that entry for one
fixed server name, plus two observation counters: how many underlying
connection attempts (protocol handshakes) were started and how many times
the shared client close ran. -/

/-- Bookkeeping state for one stdio server name.
inMap is whether the name is currently a key of sharedStdioClients;
hasClient and connecting are the entry.client and entry.connecting
fields; refs is entry.refs (an Int, because the source computes
Math.max(0, refs - 1) rather than relying on a natural type). -/
structure ShareState where
  inMap : Bool
  hasClient : Bool
  connecting : Bool
  refs : Int
  handshakes : Nat
  underlyingCloses : Nat
deriving DecidableEq

/-- Registry state before any connect call for the name. -/
def initialShareState : ShareState :=
  ⟨false, false, false, 0, 0, 0⟩

/-- Lease proxy handed to one caller of connect; released is the
closed-over released flag of its close method. -/
structure Lease where
  released : Bool
deriving DecidableEq

/-- Synchronous prefix of one connect(name) call for a stdio server, up
to the await of entry.connecting (spawn-servers.ts lines 370-399): look
the name up in sharedStdioClients, insert a fresh entry with refs 0 when
absent, and when the entry has neither a client nor a pending connecting
promise, start the underlying connectMcpClient attempt. -/
def connectBegin (s : ShareState) : ShareState :=
  if s.inMap then
    if ¬ s.hasClient ∧ ¬ s.connecting then
      { s with connecting := true, handshakes := s.handshakes + 1 }
    else s
  else
    { inMap := true, hasClient := false, connecting := true, refs := 0,
      handshakes := s.handshakes + 1,
      underlyingCloses := s.underlyingCloses }

/-- Successful resolution of the pending connecting promise: the decorated
client is stored on the entry and the connecting field is cleared. -/
def connectResolve (s : ShareState) : ShareState :=
  if s.connecting then { s with hasClient := true, connecting := false } else s

/-- Rejection of the pending connecting promise: the catch handler removes
the name from sharedStdioClients before rethrowing
(spawn-servers.ts lines 388-391). -/
def connectReject (s : ShareState) : ShareState :=
  { s with inMap := false }

/-- Resumption of one connect(name) caller after the await
(spawn-servers.ts lines 401-433): if the entry still has no client the
call throws (none); otherwise refs is incremented and a fresh
unreleased lease proxy is returned. -/
def connectFinish (s : ShareState) : ShareState × Option Lease :=
  if s.hasClient then
    ({ s with refs := s.refs + 1 }, some ⟨false⟩)
  else (s, none)

/-- Close method of a lease proxy (spawn-servers.ts lines 405-414): a
second close of the same lease is a no-op; otherwise the released flag is
set, refs becomes Math.max(0, refs - 1), and exactly when it reaches zero
the name is deleted from sharedStdioClients and the shared client close
runs. -/
def leaseClose (s : ShareState) (l : Lease) : ShareState × Lease :=
  if l.released then (s, l)
  else
    let refs2 := max 0 (s.refs - 1)
    if refs2 = 0 then
      ({ s with refs := refs2, inMap := false, underlyingCloses := s.underlyingCloses + 1 },
        ⟨true⟩)
    else
      ({ s with refs := refs2 }, ⟨true⟩)

/-- Schedule of the lease-invariant claim: N callers concurrently enter
connect (each running its synchronous prefix before the single underlying
attempt resolves), the attempt resolves once, and then each caller resumes
and takes its lease. -/
def afterConnects (N : Nat) : ShareState :=
  Nat.iterate (fun s => (connectFinish s).1) N
    (connectResolve (Nat.iterate connectBegin N initialShareState))

/-- Closing k distinct leases, each of them not yet released. -/
def closeFreshLeases (k : Nat) (s : ShareState) : ShareState :=
  Nat.iterate (fun s2 => (leaseClose s2 ⟨false⟩).1) k s

/-- Calling the close method of one and the same lease k times in a row. -/
def closeRepeat (k : Nat) (p : ShareState × Lease) : ShareState × Lease :=
  Nat.iterate (fun q => leaseClose q.1 q.2) k p

/-- Registry state after a first connect(name) whose underlying connection
attempt rejects. -/
def afterFailedFirstConnect : ShareState :=
  connectReject (connectBegin initialShareState)

/-! ### Process handle close (src/spawn/spawn-server.ts, stop) -/

/-- Child-process state consulted by stop, mirroring the Node.js
ChildProcess fields the source reads: exitCode, signalCode, and killed.
Node semantics: killed is set to true as soon as a kill() call
successfully sends any signal; it does not mean the process terminated. -/
structure ChildState where
  exitCode : Option Int
  signalCode : Option String
  killedFlag : Bool
deriving DecidableEq

/-- Environment describing how the child and the OS behave during one
stop call: whether kill(signal) throws, whether it reports the signal as
delivered, whether the close event fires before the timeout, and whether
the process happens to have exited by the time the timer fires. -/
structure StopScenario where
  killThrows : Bool
  killDelivers : Bool
  closesWithinTimeout : Bool
  exitedAtTimeout : Bool
deriving DecidableEq

/-- Translation of the stop function returned by spawnProcess
(src/spawn/spawn-server.ts lines 143-208). Returns the StopResult, the
child state after the call, and the list of signals sent. When the
process already exited the call returns immediately; otherwise the
graceful signal is sent and the call races the close event against the
timeout, whose handler sends SIGKILL only when the process has not exited
and child.killed is still false. Because a successful graceful kill(signal)
already set child.killed to true, that guard is false on the timeout
path. -/
def stop (child : ChildState) (sc : StopScenario) (signal : String) :
    StopResult × ChildState × List String :=
  if child.exitCode ≠ none ∨ child.signalCode ≠ none then
    (⟨false, false⟩, child, [])
  else if sc.killThrows then
    (⟨false, false⟩, child, [])
  else if ¬ sc.killDelivers then
    (⟨false, false⟩, child, [])
  else
    if sc.closesWithinTimeout then
      (⟨false, false⟩,
        { child with killedFlag := true, signalCode := some signal }, [signal])
    else
      if sc.exitedAtTimeout = false ∧ ({ child with killedFlag := true } : ChildState).killedFlag = false then
        (⟨true, true⟩, { child with killedFlag := true }, [signal, "SIGKILL"])
      else
        (⟨true, false⟩,
          { child with killedFlag := true, exitCode := if sc.exitedAtTimeout then some 0 else none },
          [signal])

/-! ### PKCE generation (src/auth/pkce.ts)

The source builds the verifier as the base64url encoding of 32 random
bytes and the challenge as the base64url encoding of the SHA-256 digest
of the ASCII verifier, both via node Buffer toString base64url (which
emits no padding) and node crypto createHash. Base64url and SHA-256 are
embedded below; SHA-256 is modelled from FIPS 180-4, the algorithm
node crypto computes. -/

/-- Base64url alphabet (RFC 4648 section 5), the table node Buffer uses
for the base64url encoding. -/
def b64UrlAlphabet : List Char :=
  "ABCDEFGHIJKLMNOPQRSTUVWXYZabcdefghijklmnopqrstuvwxyz0123456789-_".toList

/-- Character emitted for one 6-bit group. -/
def b64Char (n : Nat) : Char :=
  b64UrlAlphabet.getD n 'A'

/-- Base64url encoding of a byte list, three bytes at a time, without
padding (node Buffer base64url emits no padding characters). -/
def base64urlEncode : List Nat → List Char
  | [] => []
  | [b1] => [b64Char (b1 / 4), b64Char (b1 % 4 * 16)]
  | [b1, b2] =>
      [b64Char (b1 / 4), b64Char (b1 % 4 * 16 + b2 / 16), b64Char (b2 % 16 * 4)]
  | b1 :: b2 :: b3 :: rest =>
      b64Char (b1 / 4) :: b64Char (b1 % 4 * 16 + b2 / 16) ::
        b64Char (b2 % 16 * 4 + b3 / 64) :: b64Char (b3 % 64) ::
          base64urlEncode rest

/-- Base64url encoding as a string. -/
def base64url (bytes : List Nat) : String :=
  String.mk (base64urlEncode bytes)

/-- Right rotation of a 32-bit word. -/
def rotr32 (n w : Nat) : Nat :=
  ((w >>> n) ||| (w <<< (32 - n))) % 4294967296

/-- SHA-256 round constants (FIPS 180-4 section 4.2.2). -/
def shaK : List Nat :=
  [1116352408, 1899447441, 3049323471, 3921009573, 961987163,
   1508970993, 2453635748, 2870763221, 3624381080, 310598401,
   607225278, 1426881987, 1925078388, 2162078206, 2614888103,
   3248222580, 3835390401, 4022224774, 264347078, 604807628,
   770255983, 1249150122, 1555081692, 1996064986, 2554220882,
   2821834349, 2952996808, 3210313671, 3336571891, 3584528711,
   113926993, 338241895, 666307205, 773529912, 1294757372,
   1396182291, 1695183700, 1986661051, 2177026350, 2456956037,
   2730485921, 2820302411, 3259730800, 3345764771, 3516065817,
   3600352804, 4094571909, 275423344, 430227734, 506948616,
   659060556, 883997877, 958139571, 1322822218, 1537002063,
   1747873779, 1955562222, 2024104815, 2227730452, 2361852424,
   2428436474, 2756734187, 3204031479, 3329325298]

/-- SHA-256 working state, the eight hash words. -/
structure Hash8 where
  a : Nat
  b : Nat
  c : Nat
  d : Nat
  e : Nat
  f : Nat
  g : Nat
  h : Nat

/-- SHA-256 initial hash value (FIPS 180-4 section 5.3.3). -/
def shaInit : Hash8 :=
  ⟨1779033703, 3144134277, 1013904242, 2773480762,
   1359893119, 2600822924, 528734635, 1541459225⟩

/-- Message padding: append 0x80, zeros to 56 mod 64 bytes, then the bit
length as eight big-endian bytes. -/
def shaPad (msg : List Nat) : List Nat :=
  let l := msg.length
  let zeros := (64 + 55 - l % 64) % 64
  let bitLen := (8 * l) % 18446744073709551616
  msg ++ [0x80] ++ List.replicate zeros 0 ++
    ((List.range 8).map (fun i => (bitLen >>> (8 * (7 - i))) % 256))

/-- Split a byte list into 64-byte chunks. -/
def chunks64 (l : List Nat) : List (List Nat) :=
  if hl : l = [] then []
  else
    l.take 64 :: chunks64 (l.drop 64)
termination_by l.length
decreasing_by
  simp only [List.length_drop]
  have hp : 0 < l.length := List.length_pos.mpr hl
  omega

/-- Sixteen big-endian 32-bit words from one 64-byte chunk. -/
def chunkWords (chunk : List Nat) : List Nat :=
  (List.range 16).map (fun i =>
    chunk.getD (4 * i) 0 * 16777216 + chunk.getD (4 * i + 1) 0 * 65536 +
      chunk.getD (4 * i + 2) 0 * 256 + chunk.getD (4 * i + 3) 0)

/-- Message-schedule extension step: append the next word computed from
the words 16, 15, 7 and 2 positions back. -/
def scheduleStep (ws : List Nat) : List Nat :=
  let i := ws.length
  let w15 := ws.getD (i - 15) 0
  let w2 := ws.getD (i - 2) 0
  let s0 := (rotr32 7 w15) ^^^ (rotr32 18 w15) ^^^ (w15 >>> 3)
  let s1 := (rotr32 17 w2) ^^^ (rotr32 19 w2) ^^^ (w2 >>> 10)
  ws ++ [(ws.getD (i - 16) 0 + s0 + ws.getD (i - 7) 0 + s1) % 4294967296]

/-- Full 64-word message schedule of one chunk. -/
def messageSchedule (chunk : List Nat) : List Nat :=
  Nat.iterate scheduleStep 48 (chunkWords chunk)

/-- One SHA-256 compression round with round constant ki and schedule
word wi. -/
def compressRound (st : Hash8) (ki wi : Nat) : Hash8 :=
  let s1 := (rotr32 6 st.e) ^^^ (rotr32 11 st.e) ^^^ (rotr32 25 st.e)
  let ch := (st.e &&& st.f) ^^^ ((st.e ^^^ 4294967295) &&& st.g)
  let temp1 := (st.h + s1 + ch + ki + wi) % 4294967296
  let s0 := (rotr32 2 st.a) ^^^ (rotr32 13 st.a) ^^^ (rotr32 22 st.a)
  let maj := (st.a &&& st.b) ^^^ (st.a &&& st.c) ^^^ (st.b &&& st.c)
  let temp2 := (s0 + maj) % 4294967296
  ⟨(temp1 + temp2) % 4294967296, st.a, st.b, st.c,
   (st.d + temp1) % 4294967296, st.e, st.f, st.g⟩

/-- Compression of one 64-byte chunk into the running hash value. -/
def compressChunk (hv : Hash8) (chunk : List Nat) : Hash8 :=
  let final := (shaK.zip (messageSchedule chunk)).foldl
    (fun st kw => compressRound st kw.1 kw.2) hv
  ⟨(hv.a + final.a) % 4294967296, (hv.b + final.b) % 4294967296,
   (hv.c + final.c) % 4294967296, (hv.d + final.d) % 4294967296,
   (hv.e + final.e) % 4294967296, (hv.f + final.f) % 4294967296,
   (hv.g + final.g) % 4294967296, (hv.h + final.h) % 4294967296⟩

/-- Big-endian bytes of one 32-bit word. -/
def wordBytes (w : Nat) : List Nat :=
  [(w >>> 24) % 256, (w >>> 16) % 256, (w >>> 8) % 256, w % 256]

/-- SHA-256 digest of a byte list, 32 bytes. -/
def sha256 (msg : List Nat) : List Nat :=
  let hv := (chunks64 (shaPad msg)).foldl compressChunk shaInit
  wordBytes hv.a ++ wordBytes hv.b ++ wordBytes hv.c ++ wordBytes hv.d ++
    wordBytes hv.e ++ wordBytes hv.f ++ wordBytes hv.g ++ wordBytes hv.h

/-- ASCII bytes of a string, as node Buffer ascii encoding produces them
(each code point masked to 7 bits). -/
def asciiBytes (s : String) : List Nat :=
  s.data.map (fun c => c.toNat % 128)

/-- PKCE parameter record from src/auth/types.ts (PkceParams). -/
structure PkceParams where
  codeVerifier : String
  codeChallenge : String
  codeChallengeMethod : String
deriving DecidableEq

/-- Translation of generatePkce from src/auth/pkce.ts, parametrised by
the 32 random bytes the source draws from crypto randomBytes: the
verifier is their base64url encoding and the challenge is the base64url
encoding of the SHA-256 digest of the ASCII verifier (S256 method). -/
def generatePkce (randomBytes : List Nat) : PkceParams :=
  let codeVerifier := base64url randomBytes
  { codeVerifier := codeVerifier,
    codeChallenge := base64url (sha256 (asciiBytes codeVerifier)),
    codeChallengeMethod := "S256" }

/-- Characters of the unreserved URL-safe class the claim references. -/
def isUrlSafeChar (c : Char) : Bool :=
  c.isAlpha || c.isDigit || c = '-' || c = '.' || c = '_' || c = '~'

/-- Nonempty string all of whose characters are URL-safe, i.e. a match of
the anchored regular expression class of unreserved characters. -/
def urlSafeString (s : String) : Prop :=
  0 < s.length ∧ ∀ c ∈ s.data, isUrlSafeChar c = true

/-! ### OAuth discovery chain (src/auth/rfc9728-discovery.ts and
src/auth/capability-discovery.ts)

The network is an oracle mapping each request to either a response or a
network failure (fetch rejection). A response carries its ok flag, the
www-authenticate header, and a body that either parses as JSON or makes
response.json() reject. The source casts parsed JSON without validation,
so a JSON document is modelled as a record of the optional fields the
discovery code reads; a missing field behaves as undefined does in
JavaScript. Each discovery function also returns the list of requests it
issued, in order. -/

/-- HTTP method of a probe. -/
inductive Method where
  | get
  | post
deriving DecidableEq

/-- One outbound request. -/
structure Request where
  method : Method
  url : String
deriving DecidableEq

/-- JSON document as seen through the unchecked casts of the discovery
code. -/
structure JsonDoc where
  resource : Option String := none
  authorization_servers : Option (List String) := none
  scopes_supported : Option (List String) := none
  registration_endpoint : Option String := none
  authorization_endpoint : Option String := none
  token_endpoint : Option String := none
  introspection_endpoint : Option String := none
deriving DecidableEq

/-- HTTP response: the ok flag (status 200-299), the www-authenticate
header, and the JSON body (error means response.json() rejects). -/
structure Response where
  ok : Bool
  wwwAuthenticate : Option String := none
  body : Except Unit JsonDoc := .error ()

/-- Network oracle: error models a fetch rejection such as a connection
refused, DNS failure or timeout. -/
def World : Type :=
  Request → Except Unit Response

/-- World with no listener at all: every fetch is rejected. -/
def refusedWorld : World :=
  fun _ => .error ()

/-- World whose server answers every request with a non-2xx response
carrying no header and a body that is not valid JSON. -/
def notFoundWorld : World :=
  fun _ => .ok ⟨false, none, .error ()⟩

/-- Parsed pieces of a hierarchical URL: scheme, host (with port), and
pathname without query or fragment. -/
structure UrlParts where
  scheme : String
  host : String
  pathname : String
deriving DecidableEq

/-- Model of the JavaScript URL constructor on scheme://rest URLs: none
when the constructor would throw; otherwise the host runs up to the first
slash, question mark or hash, and the pathname runs from the slash up to
the query or fragment (an absent path normalises to a single slash). -/
def parseUrl (u : String) : Option UrlParts :=
  match splitSchemeAux [] u.toList with
  | some (scheme, cs) =>
      if validScheme scheme then
        if (cs.takeWhile (fun c => c != '/' && c != '?' && c != '#')).isEmpty then none
        else
          match cs.drop (cs.takeWhile (fun c => c != '/' && c != '?' && c != '#')).length with
          | '/' :: restAfter =>
              some ⟨String.mk (scheme.map Char.toLower),
                String.mk (cs.takeWhile (fun c => c != '/' && c != '?' && c != '#')),
                String.mk (('/' :: restAfter).takeWhile (fun c => c != '?' && c != '#'))⟩
          | _ =>
              some ⟨String.mk (scheme.map Char.toLower),
                String.mk (cs.takeWhile (fun c => c != '/' && c != '?' && c != '#')),
                String.mk ['/']⟩
      else none
  | none => none

/-- Translation of getOrigin (rfc9728-discovery.ts lines 10-24): the
origin of the URL, or the input itself when the URL constructor throws. -/
def getOrigin (u : String) : String :=
  match parseUrl u with
  | some p => p.scheme ++ "://" ++ p.host
  | none => u

/-- Translation of getPath (rfc9728-discovery.ts lines 31-39): the
pathname with query and fragment stripped, the empty string for a bare
origin or an unparsable URL. -/
def getPath (u : String) : String :=
  match parseUrl u with
  | some p => if p.pathname = "/" then "" else p.pathname
  | none => ""

/-- Case-insensitive prefix test on character lists. -/
def charsStartWithCI : List Char → List Char → Bool
  | [], _ => true
  | _ :: _, [] => false
  | k :: ks, c :: cs => k.toLower == c.toLower && charsStartWithCI ks cs

/-- Leftmost match of one of the regular expressions key="([^"]+)" with
the i flag, scanning positions left to right and at each position trying
the keys in order; returns the first nonempty quoted value. -/
def findQuotedParam (keys : List String) : List Char → Option String
  | [] => none
  | c :: rest =>
      match keys.findSome? (fun k =>
        let pat := (k ++ "=\"").toList
        if charsStartWithCI pat (c :: rest) then
          let after := (c :: rest).drop pat.length
          let v := after.takeWhile (fun d => d != '"')
          if v.isEmpty then none
          else if (after.drop v.length).headD ' ' = '"' then some (String.mk v)
          else none
        else none) with
      | some v => some v
      | none => findQuotedParam keys rest

/-- Strict equality metadata.resource === resourceUrl: false when the
field is absent (undefined === string). -/
def metadataResourceEq (r : Option String) (u : String) : Bool :=
  match r with
  | some s => s == u
  | none => false

/-- Prefix test on character lists. -/
def charsStartWith : List Char → List Char → Bool
  | [], _ => true
  | _ :: _, [] => false
  | p :: ps, c :: cs => p == c && charsStartWith ps cs

/-- The call resourceUrl.startsWith(metadata.resource): when the field is
absent, JavaScript coerces undefined to the string undefined. -/
def startsWithJS (u : String) (r : Option String) : Bool :=
  charsStartWith (r.getD "undefined").toList u.toList

/-- Follow-up of the header strategy: extract the resource_metadata URI
reference from the www-authenticate header and fetch it as
protected-resource metadata (rfc9728-discovery.ts lines 143-180). -/
def headerFollow (w : World) (tr : List Request) (header : String) :
    List Request × Option JsonDoc :=
  match findQuotedParam ["resource_metadata"] header.toList with
  | none => (tr, none)
  | some metadataUrl =>
      match w ⟨.get, metadataUrl⟩ with
      | .error _ => (tr ++ [⟨.get, metadataUrl⟩], none)
      | .ok r =>
          if r.ok then
            match r.body with
            | .ok doc => (tr ++ [⟨.get, metadataUrl⟩], some doc)
            | .error _ => (tr ++ [⟨.get, metadataUrl⟩], none)
          else (tr ++ [⟨.get, metadataUrl⟩], none)

/-- Translation of discoverProtectedResourceMetadataFromHeader
(rfc9728-discovery.ts lines 143-180): probe the resource with GET, retry
with an empty-body POST when the header is absent, then follow the
resource_metadata reference; every failure yields none. -/
def discoverFromHeader (w : World) (resourceUrl : String) :
    List Request × Option JsonDoc :=
  match w ⟨.get, resourceUrl⟩ with
  | .error _ => ([⟨.get, resourceUrl⟩], none)
  | .ok r1 =>
      match r1.wwwAuthenticate with
      | some h => headerFollow w [⟨.get, resourceUrl⟩] h
      | none =>
          match w ⟨.post, resourceUrl⟩ with
          | .error _ => ([⟨.get, resourceUrl⟩, ⟨.post, resourceUrl⟩], none)
          | .ok r2 =>
              match r2.wwwAuthenticate with
              | some h => headerFollow w [⟨.get, resourceUrl⟩, ⟨.post, resourceUrl⟩] h
              | none => ([⟨.get, resourceUrl⟩, ⟨.post, resourceUrl⟩], none)

/-- Strategy 2 of discoverProtectedResourceMetadata
(rfc9728-discovery.ts lines 115-134): probe the path-specific sub-location
directly, only when the URL has a path component. -/
def subPathProbe (w : World) (tr : List Request) (origin path : String) :
    List Request × Option JsonDoc :=
  if path = "" then (tr, none)
  else
    match w ⟨.get, origin ++ "/.well-known/oauth-protected-resource" ++ path⟩ with
    | .error _ => (tr ++ [⟨.get, origin ++ "/.well-known/oauth-protected-resource" ++ path⟩], none)
    | .ok r =>
        if r.ok then
          match r.body with
          | .ok doc =>
              (tr ++ [⟨.get, origin ++ "/.well-known/oauth-protected-resource" ++ path⟩], some doc)
          | .error _ =>
              (tr ++ [⟨.get, origin ++ "/.well-known/oauth-protected-resource" ++ path⟩], none)
        else (tr ++ [⟨.get, origin ++ "/.well-known/oauth-protected-resource" ++ path⟩], none)

/-- Translation of discoverProtectedResourceMetadata
(rfc9728-discovery.ts lines 57-140): header strategy first, then the root
well-known location; on a root hit, return it when its resource matches
the requested URL exactly or the URL has no path; when the requested URL
is a prefix-extension of the returned resource, probe the path-specific
sub-location for more specific metadata and fall back to the root
metadata when that probe fails, is non-2xx, or returns malformed JSON;
otherwise fall through to the direct sub-path strategy. -/
def discoverProtectedResourceMetadata (w : World) (resourceUrl : String) :
    List Request × Option JsonDoc :=
  match discoverFromHeader w resourceUrl with
  | (tr0, some doc) => (tr0, some doc)
  | (tr0, none) =>
      match w ⟨.get, getOrigin resourceUrl ++ "/.well-known/oauth-protected-resource"⟩ with
      | .error _ =>
          subPathProbe w
            (tr0 ++ [⟨.get, getOrigin resourceUrl ++ "/.well-known/oauth-protected-resource"⟩])
            (getOrigin resourceUrl) (getPath resourceUrl)
      | .ok resp =>
          if resp.ok then
            match resp.body with
            | .error _ =>
                subPathProbe w
                  (tr0 ++ [⟨.get, getOrigin resourceUrl ++ "/.well-known/oauth-protected-resource"⟩])
                  (getOrigin resourceUrl) (getPath resourceUrl)
            | .ok metadata =>
                if metadataResourceEq metadata.resource resourceUrl then
                  (tr0 ++ [⟨.get, getOrigin resourceUrl ++ "/.well-known/oauth-protected-resource"⟩],
                    some metadata)
                else if getPath resourceUrl = "" then
                  (tr0 ++ [⟨.get, getOrigin resourceUrl ++ "/.well-known/oauth-protected-resource"⟩],
                    some metadata)
                else if startsWithJS resourceUrl metadata.resource then
                  match w ⟨.get, getOrigin resourceUrl ++ "/.well-known/oauth-protected-resource"
                      ++ getPath resourceUrl⟩ with
                  | .error _ =>
                      (tr0 ++ [⟨.get, getOrigin resourceUrl ++ "/.well-known/oauth-protected-resource"⟩,
                        ⟨.get, getOrigin resourceUrl ++ "/.well-known/oauth-protected-resource"
                          ++ getPath resourceUrl⟩], some metadata)
                  | .ok subResp =>
                      if subResp.ok then
                        match subResp.body with
                        | .ok subDoc =>
                            (tr0 ++ [⟨.get, getOrigin resourceUrl ++ "/.well-known/oauth-protected-resource"⟩,
                              ⟨.get, getOrigin resourceUrl ++ "/.well-known/oauth-protected-resource"
                                ++ getPath resourceUrl⟩], some subDoc)
                        | .error _ =>
                            (tr0 ++ [⟨.get, getOrigin resourceUrl ++ "/.well-known/oauth-protected-resource"⟩,
                              ⟨.get, getOrigin resourceUrl ++ "/.well-known/oauth-protected-resource"
                                ++ getPath resourceUrl⟩], some metadata)
                      else
                        (tr0 ++ [⟨.get, getOrigin resourceUrl ++ "/.well-known/oauth-protected-resource"⟩,
                          ⟨.get, getOrigin resourceUrl ++ "/.well-known/oauth-protected-resource"
                            ++ getPath resourceUrl⟩], some metadata)
                else
                  subPathProbe w
                    (tr0 ++ [⟨.get, getOrigin resourceUrl ++ "/.well-known/oauth-protected-resource"⟩])
                    (getOrigin resourceUrl) (getPath resourceUrl)
          else
            subPathProbe w
              (tr0 ++ [⟨.get, getOrigin resourceUrl ++ "/.well-known/oauth-protected-resource"⟩])
              (getOrigin resourceUrl) (getPath resourceUrl)

/-- Translation of discoverAuthorizationServerMetadata
(rfc9728-discovery.ts lines 193-211): one GET of the well-known
authorization-server document at the origin of the given URL. -/
def discoverAuthorizationServerMetadata (w : World) (authServerUrl : String) :
    List Request × Option JsonDoc :=
  match w ⟨.get, getOrigin authServerUrl ++ "/.well-known/oauth-authorization-server"⟩ with
  | .error _ =>
      ([⟨.get, getOrigin authServerUrl ++ "/.well-known/oauth-authorization-server"⟩], none)
  | .ok r =>
      if r.ok then
        match r.body with
        | .ok doc =>
            ([⟨.get, getOrigin authServerUrl ++ "/.well-known/oauth-authorization-server"⟩], some doc)
        | .error _ =>
            ([⟨.get, getOrigin authServerUrl ++ "/.well-known/oauth-authorization-server"⟩], none)
      else ([⟨.get, getOrigin authServerUrl ++ "/.well-known/oauth-authorization-server"⟩], none)

/-- JavaScript truthiness of an optional string field: absent and the
empty string are falsy. -/
def truthyStr (o : Option String) : Bool :=
  match o with
  | some s => s != ""
  | none => false

/-- Discovered capabilities record from src/auth/types.ts
(AuthCapabilities). -/
structure AuthCapabilities where
  supportsDcr : Bool
  registrationEndpoint : Option String := none
  authorizationEndpoint : Option String := none
  tokenEndpoint : Option String := none
  introspectionEndpoint : Option String := none
  scopes : Option (List String) := none
deriving DecidableEq

/-- Field kept only when truthy, as the conditional assignments in
capability-discovery.ts do. -/
def keepTruthy (o : Option String) : Option String :=
  if truthyStr o then o else none

/-- Capabilities the chain builds from authorization-server metadata,
preferring resource-level scopes over authorization-server scopes
(capability-discovery.ts lines 62-85). -/
def capsFromChain (asm : JsonDoc) (resourceScopes : Option (List String)) :
    AuthCapabilities :=
  { supportsDcr := truthyStr asm.registration_endpoint,
    registrationEndpoint := keepTruthy asm.registration_endpoint,
    authorizationEndpoint := keepTruthy asm.authorization_endpoint,
    tokenEndpoint := keepTruthy asm.token_endpoint,
    introspectionEndpoint := keepTruthy asm.introspection_endpoint,
    scopes := resourceScopes.orElse (fun _ => asm.scopes_supported) }

/-- Capabilities the origin fallback builds
(capability-discovery.ts lines 88-108). -/
def capsFromOrigin (asm : JsonDoc) : AuthCapabilities :=
  { supportsDcr := truthyStr asm.registration_endpoint,
    registrationEndpoint := keepTruthy asm.registration_endpoint,
    authorizationEndpoint := keepTruthy asm.authorization_endpoint,
    tokenEndpoint := keepTruthy asm.token_endpoint,
    introspectionEndpoint := keepTruthy asm.introspection_endpoint,
    scopes := asm.scopes_supported }

/-- Capabilities object returned when nothing was discovered. -/
def noDcr : AuthCapabilities :=
  ⟨false, none, none, none, none, none⟩

/-- Strategy 2 of probeAuthCapabilities: direct authorization-server
discovery at the resource origin (capability-discovery.ts lines 86-112). -/
def probeOriginFallback (w : World) (baseUrl : String) : Except Unit AuthCapabilities :=
  match (discoverAuthorizationServerMetadata w (getOrigin baseUrl)).2 with
  | some asm => .ok (capsFromOrigin asm)
  | none => .ok noDcr

/-- Body of the try block of probeAuthCapabilities
(src/auth/capability-discovery.ts lines 46-112). Reading the length of an
absent authorization_servers field throws a TypeError in the source,
modelled as the error outcome. -/
def probeBody (w : World) (baseUrl : String) : Except Unit AuthCapabilities :=
  match (discoverProtectedResourceMetadata w baseUrl).2 with
  | some metadata =>
      match metadata.authorization_servers with
      | none => .error ()
      | some servers =>
          if servers.length > 0 then
            if servers.getD 0 "" = "" then .ok noDcr
            else
              match (discoverAuthorizationServerMetadata w (servers.getD 0 "")).2 with
              | some asm => .ok (capsFromChain asm metadata.scopes_supported)
              | none => probeOriginFallback w baseUrl
          else probeOriginFallback w baseUrl
  | none => probeOriginFallback w baseUrl

/-- Translation of probeAuthCapabilities
(src/auth/capability-discovery.ts lines 46-117): the whole body runs
inside a try whose catch absorbs every raised error into the no-DCR
capabilities object. -/
def probeAuthCapabilities (w : World) (baseUrl : String) : AuthCapabilities :=
  match probeBody w baseUrl with
  | .ok caps => caps
  | .error _ => noDcr

/-! ### External-mode authentication (src/dcr/dcr-authenticator.ts)

The token store is a key-value oracle; the refresh POST and the combined
DCR-plus-OAuth flow are oracles for the network. Times are epoch
milliseconds. -/

/-- Token set from src/auth/types.ts (TokenSet). -/
structure TokenSet where
  accessToken : String
  refreshToken : String
  expiresAt : Nat
  scopes : Option (List String) := none
  clientId : Option String := none
  clientSecret : Option String := none
deriving DecidableEq

/-- Buffer before expiry that triggers a proactive refresh
(dcr-authenticator.ts lines 30-32). -/
def REFRESH_BUFFER_MS : Nat := 5 * 60 * 1000

/-- Token-endpoint JSON response body consumed by the refresh exchange
(interactive-oauth-flow.ts, TokenResponse). -/
structure TokenResponse where
  access_token : String
  refresh_token : Option String := none
  expires_in : Nat
  scope : Option String := none
deriving DecidableEq

/-- Translation of InteractiveOAuthFlow refreshTokens
(src/auth/interactive-oauth-flow.ts lines 173-218): an error response or
a missing access_token raises; otherwise the new token set keeps the old
refresh token when the response omits one and expires at now plus
expires_in seconds. -/
def flowRefreshTokens (now : Nat) (resp : Except Unit TokenResponse)
    (refreshToken clientId clientSecret : String) : Except Unit TokenSet :=
  match resp with
  | .error _ => .error ()
  | .ok data =>
      if data.access_token = "" then .error ()
      else
        .ok { accessToken := data.access_token,
              refreshToken :=
                match data.refresh_token with
                | some rt => if rt = "" then refreshToken else rt
                | none => refreshToken,
              expiresAt := now + data.expires_in * 1000,
              scopes :=
                match data.scope with
                | some sc => if sc = "" then none else some (sc.splitOn " ")
                | none => none,
              clientId := some clientId,
              clientSecret := some clientSecret }

/-- Translation of the private refreshTokens of DcrAuthenticator
(dcr-authenticator.ts lines 273-289): raise when the token endpoint, the
refresh token or the client credentials are missing, otherwise delegate
to the flow refresh. The second component counts the network refresh
calls actually made. -/
def authRefreshTokens (now : Nat) (resp : Except Unit TokenResponse)
    (tokens : TokenSet) (tokenEndpoint : Option String) :
    Except Unit TokenSet × Nat :=
  match tokenEndpoint with
  | none => (.error (), 0)
  | some _ =>
      if tokens.refreshToken = "" then (.error (), 0)
      else
        match tokens.clientId, tokens.clientSecret with
        | some cid, some csec =>
            if cid = "" ∨ csec = "" then (.error (), 0)
            else (flowRefreshTokens now resp tokens.refreshToken cid csec, 1)
        | _, _ => (.error (), 0)

/-- Outcome of one ensureAuthenticatedExternal call: the returned or
raised value, the token store afterwards, and how many network refresh
calls and full DCR-plus-OAuth flows ran. -/
structure ExternalAuthOutcome where
  result : Except Unit TokenSet
  store : String → Option TokenSet
  refreshCalls : Nat
  fullAuthRuns : Nat

/-- Store update. -/
def storeSet (store : String → Option TokenSet) (k : String) (v : TokenSet) :
    String → Option TokenSet :=
  fun x => if x = k then some v else store x

/-- Store deletion. -/
def storeDelete (store : String → Option TokenSet) (k : String) :
    String → Option TokenSet :=
  fun x => if x = k then none else store x

/-- Step 3 of ensureAuthenticatedExternal
(dcr-authenticator.ts lines 233-268): require the registration,
authorization and token endpoints, then run the DCR registration plus the
interactive OAuth flow (an oracle here), persisting and returning the
resulting token set. -/
def runFullAuthFlow (fullFlow : Except Unit TokenSet)
    (store : String → Option TokenSet) (tokenKey : String)
    (capabilities : AuthCapabilities) (refreshCalls : Nat) :
    ExternalAuthOutcome :=
  if ¬ truthyStr capabilities.registrationEndpoint ∨
      ¬ truthyStr capabilities.authorizationEndpoint ∨
      ¬ truthyStr capabilities.tokenEndpoint then
    { result := .error (), store := store, refreshCalls := refreshCalls,
      fullAuthRuns := 0 }
  else
    match fullFlow with
    | .error _ =>
        { result := .error (), store := store, refreshCalls := refreshCalls,
          fullAuthRuns := 1 }
    | .ok t =>
        { result := .ok t, store := storeSet store tokenKey t,
          refreshCalls := refreshCalls, fullAuthRuns := 1 }

/-- Translation of ensureAuthenticatedExternal
(src/dcr/dcr-authenticator.ts lines 206-269): look up the stored token
set; when its expiry is within the refresh buffer of now, attempt one
refresh, persisting and returning the refreshed set on success and
deleting the entry and falling through to the full flow on failure; when
it is not near expiry, return it unchanged with no network call; when
nothing is stored, run the full flow. -/
def ensureAuthenticatedExternal (now : Nat) (refreshResp : Except Unit TokenResponse)
    (fullFlow : Except Unit TokenSet) (store : String → Option TokenSet)
    (baseUrl : String) (capabilities : AuthCapabilities) : ExternalAuthOutcome :=
  match store ("tokens:" ++ baseUrl) with
  | some t =>
      if t.expiresAt < now + REFRESH_BUFFER_MS then
        match authRefreshTokens now refreshResp t capabilities.tokenEndpoint with
        | (.ok t2, n) =>
            { result := .ok t2, store := storeSet store ("tokens:" ++ baseUrl) t2,
              refreshCalls := n, fullAuthRuns := 0 }
        | (.error _, n) =>
            runFullAuthFlow fullFlow (storeDelete store ("tokens:" ++ baseUrl))
              ("tokens:" ++ baseUrl) capabilities n
      else
        { result := .ok t, store := store, refreshCalls := 0, fullAuthRuns := 0 }
  | none => runFullAuthFlow fullFlow store ("tokens:" ++ baseUrl) capabilities 0

/-! ### Concrete fixtures used by witnesses and counterexamples -/

deriving instance DecidableEq for Except

deriving instance DecidableEq for Response

/-- Network world whose protected-resource probes do yield nothing except
a root document that matches the requested URL exactly but lacks the
authorization_servers field, so that reading its length raises. -/
def errWorld : World := fun req =>
  if req = ⟨.get, "http://h/.well-known/oauth-protected-resource"⟩ then
    .ok ⟨true, none, .ok { resource := some "http://h/x" }⟩
  else .error ()

/-- Network world hosting root protected-resource metadata for the origin
and more specific metadata at the path-specific sub-location. -/
def subWorld : World := fun req =>
  if req = ⟨.get, "http://h/.well-known/oauth-protected-resource"⟩ then
    .ok ⟨true, none,
      .ok { resource := some "http://h", authorization_servers := some ["http://as"] }⟩
  else if req = ⟨.get, "http://h/.well-known/oauth-protected-resource/api/v1/mcp"⟩ then
    .ok ⟨true, none,
      .ok { resource := some "http://h/api/v1/mcp",
            authorization_servers := some ["http://as2"] }⟩
  else .error ()

/-- Root metadata served by subWorld. -/
def subWorldRootDoc : JsonDoc :=
  { resource := some "http://h", authorization_servers := some ["http://as"] }

/-- Sub-path metadata served by subWorld. -/
def subWorldSubDoc : JsonDoc :=
  { resource := some "http://h/api/v1/mcp", authorization_servers := some ["http://as2"] }

/-- Stored token set expiring four minutes after the fixture clock. -/
def cexToken : TokenSet :=
  { accessToken := "a", refreshToken := "r", expiresAt := 1000240000,
    clientId := some "c", clientSecret := some "s" }

/-- Token store holding cexToken for the fixture base URL. -/
def cexStore : String → Option TokenSet :=
  fun k => if k = "tokens:https://ex.com" then some cexToken else none

/-- Refresh response granting only ten seconds of validity. -/
def cexResp : TokenResponse :=
  { access_token := "a2", refresh_token := some "r2", expires_in := 10 }

/-- Refresh response granting 350 seconds of validity, more than the
five-minute buffer. -/
def wexResp : TokenResponse :=
  { access_token := "a2", refresh_token := some "r2", expires_in := 350 }

/-- Token set the fixture refresh at clock 1000000000 persists. -/
def cexNewToken : TokenSet :=
  { accessToken := "a2", refreshToken := "r2", expiresAt := 1000010000,
    clientId := some "c", clientSecret := some "s" }

/-- Capabilities carrying the fixture token endpoint. -/
def cexCaps : AuthCapabilities :=
  { supportsDcr := true, tokenEndpoint := some "https://ex.com/token" }

/-- Worlds in which every probe yields nothing: each request either fails
at the network level or returns a non-2xx response with no challenge
header. -/
def barrenWorld (w : World) : Prop :=
  ∀ req, w req = .error () ∨ ∃ b, w req = .ok ⟨false, none, b⟩

/-! ## Theorems -/

/-- C4 counterexample: an entry with an explicit http type and a url
whose protocol is ws: is not rejected; inference returns the http
transport, because the consistency check only fires when the url protocol
is http: or https:. -/
theorem inferTransportType_ws_counterexample :
    inferTransportType ⟨some TransportType.http, some "ws://example.com/socket"⟩ =
      .ok InferredTransport.http := by decide

/-- C4 (amended): transport inference follows the precedence explicit
type, then url protocol, then stdio default. An entry with type http and
a ws: url is accepted as http (the type and url consistency validation
only fires for http: and https: url protocols); an entry with only an
http: or https: url infers http; an entry with neither url nor type
infers stdio; an unsupported explicit type (ws-ide or sdk) raises a
configuration error; a url whose protocol is neither http: nor https:
raises when no explicit type is given; and an http: or https: url
together with a type other than http or sse-ide raises a conflict. -/
theorem inferTransportType_precedence :
    (∀ u, urlProtocol u = some "ws:" →
      inferTransportType ⟨some TransportType.http, some u⟩ = .ok .http) ∧
    (∀ u p, urlProtocol u = some p → p = "http:" ∨ p = "https:" →
      inferTransportType ⟨none, some u⟩ = .ok .http) ∧
    inferTransportType ⟨none, none⟩ = .ok .stdio ∧
    (∀ t u?, t = TransportType.wsIde ∨ t = TransportType.sdk →
      ∃ e, inferTransportType ⟨some t, u?⟩ = .error e) ∧
    (∀ u p, urlProtocol u = some p → p ≠ "http:" → p ≠ "https:" →
      ∃ e, inferTransportType ⟨none, some u⟩ = .error e) ∧
    (∀ u p t, urlProtocol u = some p → p = "http:" ∨ p = "https:" →
      t ≠ TransportType.http → t ≠ TransportType.sseIde →
      ∃ e, inferTransportType ⟨some t, some u⟩ = .error e) := by
  refine ⟨?_, ?_, ?_, ?_, ?_, ?_⟩
  · intro u h
    simp [inferTransportType, h]
  · intro u p h hp
    rcases hp with rfl | rfl <;> simp [inferTransportType, h]
  · decide
  · intro t u? ht
    rcases ht with rfl | rfl <;>
      (cases u? with
       | none => exact ⟨"Unsupported transport type", by decide⟩
       | some u =>
           cases hp : urlProtocol u with
           | none => exact ⟨"Invalid URL", by simp [inferTransportType, hp]⟩
           | some protocol =>
               by_cases hh : protocol = "http:" ∨ protocol = "https:"
               · exact ⟨"Conflicting transport", by simp [inferTransportType, hp, hh]⟩
               · exact ⟨"Unsupported transport type",
                   by simp [inferTransportType, hp, hh]⟩)
  · intro u p h h1 h2
    exact ⟨"Unsupported URL protocol: " ++ p,
      by simp [inferTransportType, h, h1, h2]⟩
  · intro u p t h hp h1 h2
    exact ⟨"Conflicting transport", by simp [inferTransportType, h, hp, h1, h2]⟩

/-- C4 witness: the ws: url with explicit http type at a concrete input. -/
theorem inferTransportType_precedence_witness :
    urlProtocol "ws://example.com/socket" = some "ws:" ∧
    inferTransportType ⟨some TransportType.http, some "ws://example.com/socket"⟩ =
      .ok .http :=
  ⟨by decide, inferTransportType_precedence.1 "ws://example.com/socket" (by decide)⟩

/-- C2: for every registry state, close invokes the close of every
tracked client, swallowing individual client close failures, strictly
before any process receives a termination signal: in the observable call
order, every client-close index precedes every process-signal index. -/
theorem registryClose_clients_before_signals
    (clients : List TrackedClient) (servers : List TrackedServer) :
    (∀ c ∈ clients, CloseEvent.clientClose c.id ∈ (registryClose clients servers).1) ∧
    (∀ i j ci pi : Nat,
      (registryClose clients servers).1[i]? = some (CloseEvent.clientClose ci) →
      (registryClose clients servers).1[j]? = some (CloseEvent.procSignal pi) →
      i < j) := by
  unfold registryClose
  by_cases hs : servers.isEmpty
  · simp only [hs, if_pos]
    constructor
    · intro c hc
      exact List.mem_map_of_mem _ hc
    · intro i j ci pi hi hj
      exfalso
      rw [List.getElem?_map] at hj
      cases h : clients[j]? with
      | none => rw [h] at hj; simp at hj
      | some c => rw [h] at hj; simp at hj
  · simp only [hs, if_neg, if_false, Bool.false_eq_true]
    constructor
    · intro c hc
      exact List.mem_append_left _ (List.mem_map_of_mem _ hc)
    · intro i j ci pi hi hj
      have hilt : i < (clients.map (fun c => CloseEvent.clientClose c.id)).length := by
        by_contra hge
        push_neg at hge
        rw [List.getElem?_append_right hge] at hi
        rw [List.getElem?_map] at hi
        cases h : servers[i - (clients.map (fun c => CloseEvent.clientClose c.id)).length]? with
        | none => rw [h] at hi; simp at hi
        | some s => rw [h] at hi; simp at hi
      have hjge : (clients.map (fun c => CloseEvent.clientClose c.id)).length ≤ j := by
        by_contra hlt
        push_neg at hlt
        rw [List.getElem?_append, if_pos hlt] at hj
        rw [List.getElem?_map] at hj
        cases h : clients[j]? with
        | none => rw [h] at hj; simp at hj
        | some c => rw [h] at hj; simp at hj
      omega

/-- C2 witness: one failing client and one server process. -/
theorem registryClose_clients_before_signals_witness :
    CloseEvent.clientClose 0 ∈ (registryClose [⟨0, true⟩] [⟨5, ⟨false, false⟩⟩]).1 ∧
    (0 : Nat) < 1 :=
  ⟨(registryClose_clients_before_signals [⟨0, true⟩] [⟨5, ⟨false, false⟩⟩]).1
      ⟨0, true⟩ (by decide),
   (registryClose_clients_before_signals [⟨0, true⟩] [⟨5, ⟨false, false⟩⟩]).2
      0 1 0 5 (by decide) (by decide)⟩

lemma connectBegin_iter (N : Nat) (h : 1 ≤ N) :
    Nat.iterate connectBegin N initialShareState = ⟨true, false, true, 0, 1, 0⟩ := by
  induction N with
  | zero => omega
  | succ n ih =>
      cases Nat.eq_zero_or_pos n with
      | inl h0 => subst h0; decide
      | inr hpos =>
          rw [Function.iterate_succ_apply', ih hpos]
          decide

lemma connectFinish_iter (n : Nat) (s : ShareState) (hs : s.hasClient = true) :
    Nat.iterate (fun s2 => (connectFinish s2).1) n s = { s with refs := s.refs + n } := by
  induction n with
  | zero => cases s; simp
  | succ k ih =>
      rw [Function.iterate_succ_apply', ih]
      cases s
      subst hs
      unfold connectFinish
      simp only [if_pos rfl, ShareState.mk.injEq, true_and, and_true]
      push_cast
      ring_nf

lemma afterConnects_eq (N : Nat) (h : 1 ≤ N) :
    afterConnects N = ⟨true, true, false, (N : Int), 1, 0⟩ := by
  unfold afterConnects
  rw [connectBegin_iter N h]
  have h2 : connectResolve ⟨true, false, true, 0, 1, 0⟩ = ⟨true, true, false, 0, 1, 0⟩ := by
    decide
  rw [h2, connectFinish_iter N ⟨true, true, false, 0, 1, 0⟩ rfl]
  simp

lemma closeFresh_pair (r : Int) (hr : 1 ≤ r) :
    leaseClose ⟨true, true, false, r, 1, 0⟩ ⟨false⟩ =
      ((if r = 1 then ⟨false, true, false, 0, 1, 1⟩
        else ⟨true, true, false, r - 1, 1, 0⟩ : ShareState), ⟨true⟩) := by
  unfold leaseClose
  by_cases h1 : r = 1
  · subst h1; decide
  · have hmax : max 0 (r - 1) = r - 1 := max_eq_right (by omega)
    simp only [hmax, if_neg h1]
    have hne : ¬ (r - 1 = 0) := by omega
    simp [hne]

lemma closeFresh_iter (N k : Nat) (hN : 1 ≤ N) (hk : k ≤ N) :
    closeFreshLeases k ⟨true, true, false, (N : Int), 1, 0⟩ =
      if k = N then ⟨false, true, false, 0, 1, 1⟩
      else ⟨true, true, false, (N : Int) - (k : Int), 1, 0⟩ := by
  induction k with
  | zero =>
      rw [if_neg (by omega)]
      simp [closeFreshLeases]
  | succ m ih =>
      have hm : m ≤ N := by omega
      have hmN : m ≠ N := by omega
      have step : closeFreshLeases (m + 1) ⟨true, true, false, (N : Int), 1, 0⟩ =
          (leaseClose (closeFreshLeases m ⟨true, true, false, (N : Int), 1, 0⟩) ⟨false⟩).1 := by
        unfold closeFreshLeases
        exact Function.iterate_succ_apply' _ _ _
      rw [step, ih hm, if_neg hmN, closeFresh_pair ((N : Int) - (m : Int)) (by omega)]
      by_cases he : m + 1 = N
      · rw [if_pos he, if_pos (by omega : (N : Int) - (m : Int) = 1)]
      · rw [if_neg he, if_neg (by omega : ¬ (N : Int) - (m : Int) = 1)]
        simp only [ShareState.mk.injEq, true_and, and_true]
        push_cast
        ring

/-- C1: for N concurrent connect calls to the same stdio server name,
exactly one underlying protocol handshake is started; after closing k of
the N leases the underlying shared client close has run exactly once when
k equals N and has never run when k is smaller, and the reference count
equals N minus k throughout. -/
theorem connect_lease_invariant (N k : Nat) (hN : 1 ≤ N) (hk : k ≤ N) :
    (afterConnects N).handshakes = 1 ∧
    (closeFreshLeases k (afterConnects N)).underlyingCloses =
      (if k = N then 1 else 0) ∧
    (closeFreshLeases k (afterConnects N)).refs = (N : Int) - (k : Int) := by
  rw [afterConnects_eq N hN, closeFresh_iter N k hN hk]
  refine ⟨rfl, ?_, ?_⟩
  · by_cases he : k = N <;> simp [he]
  · by_cases he : k = N
    · rw [if_pos he]
      subst he
      simp
    · rw [if_neg he]

/-- C1 witness: three concurrent connects, two of the three leases
closed. -/
theorem connect_lease_invariant_witness :
    (afterConnects 3).handshakes = 1 ∧
    (closeFreshLeases 2 (afterConnects 3)).underlyingCloses = (if 2 = 3 then 1 else 0) ∧
    (closeFreshLeases 2 (afterConnects 3)).refs = (3 : Int) - (2 : Int) :=
  connect_lease_invariant 3 2 (by decide) (by decide)

lemma leaseClose_released (s : ShareState) : leaseClose s ⟨true⟩ = (s, ⟨true⟩) := rfl

lemma closeRepeat_released (k : Nat) (s : ShareState) :
    closeRepeat k (s, ⟨true⟩) = (s, ⟨true⟩) := by
  induction k with
  | zero => rfl
  | succ m ih =>
      unfold closeRepeat at ih ⊢
      rw [Function.iterate_succ_apply]
      exact ih

/-- C9: closing one and the same lease k times, with r active lease
holders, decrements the shared reference count exactly once to r minus
one, the count never becomes negative, and the shared client close runs
exactly when the count went from one to zero, so repeated closes of one
lease never tear down a client another lease still holds. -/
theorem lease_close_idempotent (k : Nat) (r : Int) (hk : 1 ≤ k) (hr : 1 ≤ r) :
    closeRepeat k (⟨true, true, false, r, 1, 0⟩, ⟨false⟩) =
      ((if r = 1 then ⟨false, true, false, 0, 1, 1⟩
        else ⟨true, true, false, r - 1, 1, 0⟩ : ShareState), ⟨true⟩) ∧
    (closeRepeat k (⟨true, true, false, r, 1, 0⟩, ⟨false⟩)).1.refs = r - 1 ∧
    (closeRepeat k (⟨true, true, false, r, 1, 0⟩, ⟨false⟩)).1.underlyingCloses =
      (if r = 1 then 1 else 0) ∧
    (1 < r → (closeRepeat k (⟨true, true, false, r, 1, 0⟩, ⟨false⟩)).1.underlyingCloses = 0) ∧
    (∀ s l, 0 ≤ s.refs → 0 ≤ (leaseClose s l).1.refs) := by
  obtain ⟨m, rfl⟩ : ∃ m, k = m + 1 := ⟨k - 1, by omega⟩
  have hfirst : closeRepeat (m + 1) (⟨true, true, false, r, 1, 0⟩, ⟨false⟩) =
      ((if r = 1 then ⟨false, true, false, 0, 1, 1⟩
        else ⟨true, true, false, r - 1, 1, 0⟩ : ShareState), ⟨true⟩) := by
    unfold closeRepeat
    rw [Function.iterate_succ_apply]
    change (fun q : ShareState × Lease => leaseClose q.1 q.2)^[m]
        (leaseClose ⟨true, true, false, r, 1, 0⟩ ⟨false⟩) = _
    rw [closeFresh_pair r hr]
    exact closeRepeat_released m _
  refine ⟨hfirst, ?_, ?_, ?_, ?_⟩
  · rw [hfirst]
    by_cases h1 : r = 1
    · subst h1
      decide
    · rw [if_neg h1]
  · rw [hfirst]
    by_cases h1 : r = 1
    · subst h1
      decide
    · rw [if_neg h1, if_neg h1]
  · intro hlt
    rw [hfirst]
    have h1 : ¬ (r = 1) := by omega
    rw [if_neg h1]
  · intro s l h
    unfold leaseClose
    by_cases hrel : l.released
    · simp [hrel, h]
    · simp only [hrel, if_false, Bool.false_eq_true]
      by_cases hz : max 0 (s.refs - 1) = 0
      · simp [hz]
      · simp [hz]

/-- C9 witness: closing one of two leases twice. -/
theorem lease_close_idempotent_witness :
    closeRepeat 2 (⟨true, true, false, (2 : Int), 1, 0⟩, ⟨false⟩) =
      ((if (2 : Int) = 1 then ⟨false, true, false, 0, 1, 1⟩
        else ⟨true, true, false, (2 : Int) - 1, 1, 0⟩ : ShareState), ⟨true⟩) :=
  (lease_close_idempotent 2 2 (by decide) (by decide)).1

/-- C10: when the first connect attempt for a stdio server rejects, the
bookkeeping entry is removed before the error propagates, so neither a
client nor a pending connecting promise stays cached, and a subsequent
connect creates a fresh entry and starts a second underlying attempt. -/
theorem failed_connect_clears_entry :
    afterFailedFirstConnect.inMap = false ∧
    afterFailedFirstConnect.handshakes = 1 ∧
    connectBegin afterFailedFirstConnect = ⟨true, false, true, 0, 2, 0⟩ := by decide

/-- Close of an already-exited process returns immediately with no
timeout, no kill and no signal sent (src/spawn/spawn-server.ts lines
145-148). -/
theorem stop_already_exited (child : ChildState) (sc : StopScenario) (sig : String)
    (h : child.exitCode ≠ none ∨ child.signalCode ≠ none) :
    stop child sc sig = (⟨false, false⟩, child, []) := by
  unfold stop
  rw [if_pos h]

/-- After a graceful close completed through the close event, a second
close call returns immediately with no timeout and no kill. -/
theorem stop_graceful_then_idempotent (child : ChildState) (sc sc2 : StopScenario)
    (sig : String) (h1 : child.exitCode = none) (h2 : child.signalCode = none)
    (h3 : sc.killThrows = false) (h4 : sc.killDelivers = true)
    (h5 : sc.closesWithinTimeout = true) :
    stop ((stop child sc sig).2.1) sc2 sig =
      (⟨false, false⟩, (stop child sc sig).2.1, []) := by
  have hfirst : stop child sc sig =
      (⟨false, false⟩, { child with killedFlag := true, signalCode := some sig }, [sig]) := by
    unfold stop
    rw [if_neg (by simp [h1, h2])]
    rw [if_neg (by simp [h3])]
    rw [if_neg (by simp [h4])]
    rw [if_pos h5]
  rw [hfirst]
  apply stop_already_exited
  right
  simp

/-- C5 (code bug): a running process that ignores the graceful signal is
never force-killed. After child.kill(signal) succeeds, Node sets
child.killed to true, so the timeout guard of the timeout handler (exitCode null and
killed false) is false, no SIGKILL is sent, and the call reports timedOut
true with killed false, contradicting the documented contract of
reporting timedOut true and killed true after a SIGKILL. -/
theorem stop_timeout_reports_no_kill :
    stop ⟨none, none, false⟩ ⟨false, true, false, false⟩ "SIGINT" =
      (⟨true, false⟩, ⟨none, none, true⟩, ["SIGINT"]) ∧
    "SIGKILL" ∉ (stop ⟨none, none, false⟩ ⟨false, true, false, false⟩ "SIGINT").2.2 := by
  decide

lemma string_mk_length (cs : List Char) : (String.mk cs).length = cs.length := rfl

lemma string_mk_data (cs : List Char) : (String.mk cs).data = cs := rfl

lemma b64Char_mem (n : Nat) : b64Char n ∈ b64UrlAlphabet := by
  unfold b64Char
  rcases Nat.lt_or_ge n b64UrlAlphabet.length with h | h
  · rw [List.getD_eq_getElem _ _ h]
    exact List.getElem_mem _
  · rw [List.getD_eq_default _ _ h]
    decide

lemma b64UrlAlphabet_safe : ∀ c ∈ b64UrlAlphabet, isUrlSafeChar c = true := by decide

lemma base64urlEncode_mem : ∀ (l : List Nat), ∀ c ∈ base64urlEncode l, c ∈ b64UrlAlphabet
  | [] => by simp [base64urlEncode]
  | [b1] => by
      intro c hc
      simp only [base64urlEncode, List.mem_cons, List.not_mem_nil, or_false] at hc
      rcases hc with rfl | rfl <;> exact b64Char_mem _
  | [b1, b2] => by
      intro c hc
      simp only [base64urlEncode, List.mem_cons, List.not_mem_nil, or_false] at hc
      rcases hc with rfl | rfl | rfl <;> exact b64Char_mem _
  | b1 :: b2 :: b3 :: rest => by
      intro c hc
      simp only [base64urlEncode, List.mem_cons] at hc
      rcases hc with rfl | rfl | rfl | rfl | hc
      · exact b64Char_mem _
      · exact b64Char_mem _
      · exact b64Char_mem _
      · exact b64Char_mem _
      · exact base64urlEncode_mem rest c hc

lemma base64urlEncode_length : ∀ (l : List Nat),
    (base64urlEncode l).length = (l.length + 2) / 3 + l.length
  | [] => by simp [base64urlEncode]
  | [b1] => by simp [base64urlEncode]
  | [b1, b2] => by simp [base64urlEncode]
  | b1 :: b2 :: b3 :: rest => by
      simp only [base64urlEncode, List.length_cons]
      rw [base64urlEncode_length rest]
      omega

lemma sha256_length (msg : List Nat) : (sha256 msg).length = 32 := by
  simp [sha256, wordBytes]

/-- C6: for every 32-byte random input, the generated PKCE verifier has
length between 43 and 128 characters, both the verifier and the challenge
are nonempty strings over the unreserved URL-safe class, the method is
S256, and the challenge equals the base64url encoding of the SHA-256
digest of the ASCII verifier, hence is recomputable from the verifier. -/
theorem generatePkce_props (randomBytes : List Nat) (h : randomBytes.length = 32) :
    43 ≤ (generatePkce randomBytes).codeVerifier.length ∧
    (generatePkce randomBytes).codeVerifier.length ≤ 128 ∧
    urlSafeString (generatePkce randomBytes).codeVerifier ∧
    urlSafeString (generatePkce randomBytes).codeChallenge ∧
    (generatePkce randomBytes).codeChallengeMethod = "S256" ∧
    (generatePkce randomBytes).codeChallenge =
      base64url (sha256 (asciiBytes (generatePkce randomBytes).codeVerifier)) := by
  have hvlen : (generatePkce randomBytes).codeVerifier.length = 43 := by
    show (base64url randomBytes).length = 43
    unfold base64url
    rw [string_mk_length, base64urlEncode_length, h]
  have hclen : (generatePkce randomBytes).codeChallenge.length = 43 := by
    show (base64url (sha256 (asciiBytes (base64url randomBytes)))).length = 43
    unfold base64url
    rw [string_mk_length, base64urlEncode_length, sha256_length]
  refine ⟨by omega, by omega, ?_, ?_, rfl, rfl⟩
  · refine ⟨by omega, ?_⟩
    intro c hc
    have hmem : c ∈ base64urlEncode randomBytes := by
      simpa [generatePkce, base64url, string_mk_data] using hc
    exact b64UrlAlphabet_safe c (base64urlEncode_mem _ c hmem)
  · refine ⟨by omega, ?_⟩
    intro c hc
    have hmem : c ∈ base64urlEncode (sha256 (asciiBytes (base64url randomBytes))) := by
      simpa [generatePkce, base64url, string_mk_data] using hc
    exact b64UrlAlphabet_safe c (base64urlEncode_mem _ c hmem)

/-- C6 witness: the all-zero 32-byte input. -/
theorem generatePkce_props_witness :
    (List.replicate 32 (0 : Nat)).length = 32 ∧
    43 ≤ (generatePkce (List.replicate 32 0)).codeVerifier.length :=
  ⟨by decide, (generatePkce_props (List.replicate 32 0) (by decide)).1⟩

lemma headerFollow_barren (w : World) (hw : barrenWorld w) (tr : List Request)
    (header : String) : (headerFollow w tr header).2 = none := by
  rcases hq : findQuotedParam ["resource_metadata"] header.data with _ | metadataUrl
  · simp [headerFollow, hq]
  · rcases hw ⟨.get, metadataUrl⟩ with h | ⟨b, h⟩
    · simp [headerFollow, hq, h]
    · simp [headerFollow, hq, h]

lemma discoverFromHeader_barren (w : World) (hw : barrenWorld w) (u : String) :
    (discoverFromHeader w u).2 = none := by
  unfold discoverFromHeader
  rcases hw ⟨.get, u⟩ with h | ⟨b, h⟩
  · rw [h]
  · rw [h]
    rcases hw ⟨.post, u⟩ with h2 | ⟨b2, h2⟩
    · rw [h2]
    · rw [h2]

lemma subPathProbe_barren (w : World) (hw : barrenWorld w) (tr : List Request)
    (origin path : String) : (subPathProbe w tr origin path).2 = none := by
  unfold subPathProbe
  by_cases hp : path = ""
  · rw [if_pos hp]
  · rw [if_neg hp]
    rcases hw ⟨.get, origin ++ "/.well-known/oauth-protected-resource" ++ path⟩ with h | ⟨b, h⟩
    · rw [h]
    · rw [h]
      simp

lemma discoverPRM_barren (w : World) (hw : barrenWorld w) (u : String) :
    (discoverProtectedResourceMetadata w u).2 = none := by
  unfold discoverProtectedResourceMetadata
  rcases hdf : discoverFromHeader w u with ⟨tr0, r0⟩
  have hr0 : r0 = none := by
    have hb := discoverFromHeader_barren w hw u
    rw [hdf] at hb
    exact hb
  subst hr0
  simp only
  rcases hw ⟨.get, getOrigin u ++ "/.well-known/oauth-protected-resource"⟩ with h | ⟨b, h⟩
  · rw [h]
    exact subPathProbe_barren w hw _ _ _
  · rw [h]
    simp only [Bool.false_eq_true, if_false]
    exact subPathProbe_barren w hw _ _ _

lemma discoverASM_barren (w : World) (hw : barrenWorld w) (u : String) :
    (discoverAuthorizationServerMetadata w u).2 = none := by
  unfold discoverAuthorizationServerMetadata
  rcases hw ⟨.get, getOrigin u ++ "/.well-known/oauth-authorization-server"⟩ with h | ⟨b, h⟩
  · rw [h]
  · rw [h]
    simp

/-- C3: probeAuthCapabilities never raises: any error raised inside its
body (such as reading the length of a missing authorization_servers
field) is absorbed into the no-DCR capabilities object, and in any world
where every probe yields nothing (every request fails at the network
level or answers non-2xx without a challenge header) the result is the
no-DCR object; in particular a base URL with no listener at all, where
every fetch is refused, yields it. -/
theorem probeAuthCapabilities_never_raises :
    (∀ w u, probeBody w u = .error () → probeAuthCapabilities w u = noDcr) ∧
    (∀ w u, barrenWorld w → probeAuthCapabilities w u = noDcr) ∧
    (∀ u, probeAuthCapabilities refusedWorld u = noDcr) ∧
    (∀ u, probeAuthCapabilities notFoundWorld u = noDcr) := by
  have habsorb : ∀ w u, probeBody w u = .error () → probeAuthCapabilities w u = noDcr := by
    intro w u h
    unfold probeAuthCapabilities
    rw [h]
  have hbarren : ∀ w u, barrenWorld w → probeAuthCapabilities w u = noDcr := by
    intro w u hw
    unfold probeAuthCapabilities probeBody
    rw [discoverPRM_barren w hw u]
    unfold probeOriginFallback
    rw [discoverASM_barren w hw (getOrigin u)]
  refine ⟨habsorb, hbarren, ?_, ?_⟩
  · intro u
    exact hbarren refusedWorld u (fun req => Or.inl rfl)
  · intro u
    exact hbarren notFoundWorld u (fun req => Or.inr ⟨.error (), rfl⟩)

/-- C3 witness: a world whose root metadata matches the requested URL but
omits authorization_servers makes the body raise, and the caller still
receives the no-DCR object. -/
theorem probeAuthCapabilities_never_raises_witness :
    probeBody errWorld "http://h/x" = .error () ∧
    probeAuthCapabilities errWorld "http://h/x" = noDcr :=
  ⟨by decide, probeAuthCapabilities_never_raises.1 errWorld "http://h/x" (by decide)⟩

lemma parseUrl_pathname_clean (u : String) (p : UrlParts) (h : parseUrl u = some p) :
    ∀ c ∈ p.pathname.data, ¬(c = '?' ∨ c = '#') := by
  rcases hs : splitSchemeAux [] u.toList with _ | ⟨scheme, cs⟩
  · rw [parseUrl, hs] at h
    exact absurd h (by simp)
  · simp only [parseUrl, hs] at h
    split at h
    · split at h
      · simp at h
      · split at h
        · rename_i restAfter heq
          injection h with h2
          subst h2
          intro c hc
          simp only [string_mk_data] at hc
          rcases List.mem_cons.mp hc with rfl | hc2
          · simp
          · have hp := List.mem_takeWhile_imp hc2
            simp only [Bool.and_eq_true, bne_iff_ne, ne_eq] at hp
            tauto
        · injection h with h2
          subst h2
          intro c hc
          simp only [string_mk_data, List.mem_singleton] at hc
          subst hc
          simp
    · simp at h

lemma getPath_no_query (u : String) : ∀ c ∈ (getPath u).data, ¬(c = '?' ∨ c = '#') := by
  unfold getPath
  split
  · rename_i p hp
    split
    · simp
    · exact parseUrl_pathname_clean u p hp
  · simp


/-- C8: when the root well-known probe returns metadata whose resource is
a proper prefix of the requested URL, the path-specific sub-location is
probed with query and fragment stripped from the path, the sub-probe
metadata is returned when it succeeds, and the root metadata is returned
whenever the sub-probe fails at the network level, answers non-2xx, or
returns malformed JSON. -/
theorem discoverPRM_subpath (w : World) (u : String) (rootResp : Response)
    (rootDoc : JsonDoc)
    (hHeader : (discoverFromHeader w u).2 = none)
    (hPath : getPath u ≠ "")
    (hRoot : w ⟨.get, getOrigin u ++ "/.well-known/oauth-protected-resource"⟩ = .ok rootResp)
    (hOk : rootResp.ok = true)
    (hBody : rootResp.body = .ok rootDoc)
    (hNe : metadataResourceEq rootDoc.resource u = false)
    (hPre : startsWithJS u rootDoc.resource = true) :
    (∀ c ∈ (getPath u).data, ¬(c = '?' ∨ c = '#')) ∧
    (⟨.get, getOrigin u ++ "/.well-known/oauth-protected-resource" ++ getPath u⟩ : Request) ∈
      (discoverProtectedResourceMetadata w u).1 ∧
    (∀ subResp subDoc,
      w ⟨.get, getOrigin u ++ "/.well-known/oauth-protected-resource" ++ getPath u⟩ = .ok subResp →
      subResp.ok = true → subResp.body = .ok subDoc →
      (discoverProtectedResourceMetadata w u).2 = some subDoc) ∧
    (w ⟨.get, getOrigin u ++ "/.well-known/oauth-protected-resource" ++ getPath u⟩ = .error () →
      (discoverProtectedResourceMetadata w u).2 = some rootDoc) ∧
    (∀ subResp,
      w ⟨.get, getOrigin u ++ "/.well-known/oauth-protected-resource" ++ getPath u⟩ = .ok subResp →
      subResp.ok = false →
      (discoverProtectedResourceMetadata w u).2 = some rootDoc) ∧
    (∀ subResp,
      w ⟨.get, getOrigin u ++ "/.well-known/oauth-protected-resource" ++ getPath u⟩ = .ok subResp →
      subResp.ok = true → subResp.body = .error () →
      (discoverProtectedResourceMetadata w u).2 = some rootDoc) := by
  rcases hdf : discoverFromHeader w u with ⟨tr0, r0⟩
  have hr0 : r0 = none := by
    rw [hdf] at hHeader
    exact hHeader
  subst hr0
  have hmain : discoverProtectedResourceMetadata w u =
      match w ⟨.get, getOrigin u ++ "/.well-known/oauth-protected-resource" ++ getPath u⟩ with
      | .error _ =>
          (tr0 ++ [⟨.get, getOrigin u ++ "/.well-known/oauth-protected-resource"⟩,
            ⟨.get, getOrigin u ++ "/.well-known/oauth-protected-resource" ++ getPath u⟩],
            some rootDoc)
      | .ok subResp =>
          if subResp.ok then
            match subResp.body with
            | .ok subDoc =>
                (tr0 ++ [⟨.get, getOrigin u ++ "/.well-known/oauth-protected-resource"⟩,
                  ⟨.get, getOrigin u ++ "/.well-known/oauth-protected-resource" ++ getPath u⟩],
                  some subDoc)
            | .error _ =>
                (tr0 ++ [⟨.get, getOrigin u ++ "/.well-known/oauth-protected-resource"⟩,
                  ⟨.get, getOrigin u ++ "/.well-known/oauth-protected-resource" ++ getPath u⟩],
                  some rootDoc)
          else
            (tr0 ++ [⟨.get, getOrigin u ++ "/.well-known/oauth-protected-resource"⟩,
              ⟨.get, getOrigin u ++ "/.well-known/oauth-protected-resource" ++ getPath u⟩],
              some rootDoc) := by
    simp only [discoverProtectedResourceMetadata, hdf, hRoot, hOk, hBody, hNe, hPre,
      hPath, if_true, if_false, Bool.false_eq_true, ite_true, ite_false]
  refine ⟨getPath_no_query u, ?_, ?_, ?_, ?_, ?_⟩
  · rw [hmain]
    rcases hw2 : w ⟨.get, getOrigin u ++ "/.well-known/oauth-protected-resource" ++ getPath u⟩
        with _ | subResp
    · simp
    · by_cases ho : subResp.ok = true
      · rcases hb : subResp.body with _ | d
        · simp [ho, hb]
        · simp [ho, hb]
      · simp [ho]
  · intro subResp subDoc h1 h2 h3
    rw [hmain, h1]
    simp [h2, h3]
  · intro h1
    rw [hmain, h1]
  · intro subResp h1 h2
    rw [hmain, h1]
    simp [h2]
  · intro subResp h1 h2 h3
    rw [hmain, h1]
    simp [h2, h3]

/-- C8 witness: a requested URL carrying a query string and a fragment,
probed against a world hosting root metadata for the bare origin and more
specific metadata at the stripped sub-path. -/
theorem discoverPRM_subpath_witness :
    getPath "http://h/api/v1/mcp?q=1#frag" = "/api/v1/mcp" ∧
    (discoverProtectedResourceMetadata subWorld "http://h/api/v1/mcp?q=1#frag").2 =
      some subWorldSubDoc :=
  ⟨by decide,
   (discoverPRM_subpath subWorld "http://h/api/v1/mcp?q=1#frag"
      ⟨true, none, .ok subWorldRootDoc⟩ subWorldRootDoc
      (by decide) (by decide) (by decide) (by decide) (by decide) (by decide)
      (by decide)).2.2.1
      ⟨true, none, .ok subWorldSubDoc⟩ subWorldSubDoc (by decide) (by decide) (by decide)⟩

/-- C7 counterexample: a stored token expiring four minutes from now is
refreshed by a successful refresh whose expires_in is ten seconds; the
persisted and returned token set then expires earlier than the original,
so the refreshed expiry is not always later than the stored one. -/
theorem ensureAuthenticatedExternal_counterexample :
    (ensureAuthenticatedExternal 1000000000 (.ok cexResp) (.error ()) cexStore
      "https://ex.com" cexCaps).refreshCalls = 1 ∧
    (ensureAuthenticatedExternal 1000000000 (.ok cexResp) (.error ()) cexStore
      "https://ex.com" cexCaps).result = .ok cexNewToken ∧
    (ensureAuthenticatedExternal 1000000000 (.ok cexResp) (.error ()) cexStore
      "https://ex.com" cexCaps).store "tokens:https://ex.com" = some cexNewToken ∧
    cexNewToken.expiresAt < cexToken.expiresAt := by
  decide

/-- C7 (amended): in external mode with a stored token under
tokens:baseUrl carrying refresh credentials, a token within the 5-minute
buffer triggers exactly one refresh call; on success the refreshed set,
expiring at now plus expires_in seconds, is persisted and returned, and
its expiry is later than the original whenever the refresh grants at
least the buffer of validity; on refresh failure the entry is deleted and
the full DCR-plus-OAuth path runs; outside the buffer the stored set is
returned unchanged with no network call. -/
theorem ensureAuthenticatedExternal_refresh
    (now : Nat) (refreshResp : Except Unit TokenResponse) (fullFlow : Except Unit TokenSet)
    (store : String → Option TokenSet) (baseUrl : String) (caps : AuthCapabilities)
    (t : TokenSet) (te cid csec : String)
    (hstored : store ("tokens:" ++ baseUrl) = some t)
    (hrt : ¬ t.refreshToken = "")
    (hcid : t.clientId = some cid) (hcsec : t.clientSecret = some csec)
    (hcid2 : ¬ cid = "") (hcsec2 : ¬ csec = "")
    (hte : caps.tokenEndpoint = some te) :
    (∀ data, t.expiresAt < now + REFRESH_BUFFER_MS → refreshResp = .ok data →
      ¬ data.access_token = "" →
      (ensureAuthenticatedExternal now refreshResp fullFlow store baseUrl caps).refreshCalls = 1 ∧
      (ensureAuthenticatedExternal now refreshResp fullFlow store baseUrl caps).fullAuthRuns = 0 ∧
      (∃ t2,
        (ensureAuthenticatedExternal now refreshResp fullFlow store baseUrl caps).result = .ok t2 ∧
        (ensureAuthenticatedExternal now refreshResp fullFlow store baseUrl caps).store
          ("tokens:" ++ baseUrl) = some t2 ∧
        t2.expiresAt = now + data.expires_in * 1000 ∧
        (REFRESH_BUFFER_MS ≤ data.expires_in * 1000 → t.expiresAt < t2.expiresAt))) ∧
    (t.expiresAt < now + REFRESH_BUFFER_MS →
      (refreshResp = .error () ∨ ∃ data, refreshResp = .ok data ∧ data.access_token = "") →
      truthyStr caps.registrationEndpoint = true →
      truthyStr caps.authorizationEndpoint = true →
      truthyStr caps.tokenEndpoint = true →
      (ensureAuthenticatedExternal now refreshResp fullFlow store baseUrl caps).refreshCalls = 1 ∧
      (ensureAuthenticatedExternal now refreshResp fullFlow store baseUrl caps).fullAuthRuns = 1 ∧
      (fullFlow = .error () →
        (ensureAuthenticatedExternal now refreshResp fullFlow store baseUrl caps).result = .error () ∧
        (ensureAuthenticatedExternal now refreshResp fullFlow store baseUrl caps).store
          ("tokens:" ++ baseUrl) = none) ∧
      (∀ tf, fullFlow = .ok tf →
        (ensureAuthenticatedExternal now refreshResp fullFlow store baseUrl caps).result = .ok tf ∧
        (ensureAuthenticatedExternal now refreshResp fullFlow store baseUrl caps).store
          ("tokens:" ++ baseUrl) = some tf)) ∧
    (¬ t.expiresAt < now + REFRESH_BUFFER_MS →
      ensureAuthenticatedExternal now refreshResp fullFlow store baseUrl caps =
        { result := .ok t, store := store, refreshCalls := 0, fullAuthRuns := 0 }) := by
  refine ⟨?_, ?_, ?_⟩
  · intro data hnear hd hne
    subst hd
    have har : authRefreshTokens now (.ok data) t caps.tokenEndpoint =
        (.ok { accessToken := data.access_token,
               refreshToken :=
                 match data.refresh_token with
                 | some rt => if rt = "" then t.refreshToken else rt
                 | none => t.refreshToken,
               expiresAt := now + data.expires_in * 1000,
               scopes :=
                 match data.scope with
                 | some sc => if sc = "" then none else some (sc.splitOn " ")
                 | none => none,
               clientId := some cid, clientSecret := some csec }, 1) := by
      simp only [authRefreshTokens, hte, hcid, hcsec]
      rw [if_neg hrt, if_neg (by simp [hcid2, hcsec2])]
      simp only [flowRefreshTokens]
      rw [if_neg hne]
    simp only [ensureAuthenticatedExternal, hstored]
    rw [if_pos hnear, har]
    refine ⟨rfl, rfl, ⟨_, rfl, ?_, rfl, ?_⟩⟩
    · simp [storeSet]
    · intro hbuf
      show t.expiresAt < now + data.expires_in * 1000
      omega
  · intro hnear hfail h1 h2 h3
    have har2 : authRefreshTokens now refreshResp t caps.tokenEndpoint = (.error (), 1) := by
      rcases hfail with rfl | ⟨data, rfl, hac⟩
      · simp only [authRefreshTokens, hte, hcid, hcsec]
        rw [if_neg hrt, if_neg (by simp [hcid2, hcsec2])]
        simp only [flowRefreshTokens]
      · simp only [authRefreshTokens, hte, hcid, hcsec]
        rw [if_neg hrt, if_neg (by simp [hcid2, hcsec2])]
        simp only [flowRefreshTokens]
        rw [if_pos hac]
    have hred : ensureAuthenticatedExternal now refreshResp fullFlow store baseUrl caps =
        runFullAuthFlow fullFlow (storeDelete store ("tokens:" ++ baseUrl))
          ("tokens:" ++ baseUrl) caps 1 := by
      simp only [ensureAuthenticatedExternal, hstored]
      rw [if_pos hnear, har2]
    have hrun : runFullAuthFlow fullFlow (storeDelete store ("tokens:" ++ baseUrl))
        ("tokens:" ++ baseUrl) caps 1 =
        match fullFlow with
        | .error _ =>
            { result := .error (), store := storeDelete store ("tokens:" ++ baseUrl),
              refreshCalls := 1, fullAuthRuns := 1 }
        | .ok tf =>
            { result := .ok tf,
              store := storeSet (storeDelete store ("tokens:" ++ baseUrl))
                ("tokens:" ++ baseUrl) tf,
              refreshCalls := 1, fullAuthRuns := 1 } := by
      cases fullFlow with
      | error e =>
          unfold runFullAuthFlow
          rw [if_neg (by simp [h1, h2, h3])]
      | ok tf =>
          unfold runFullAuthFlow
          rw [if_neg (by simp [h1, h2, h3])]
    refine ⟨?_, ?_, ?_, ?_⟩
    · rw [hred, hrun]
      cases fullFlow <;> rfl
    · rw [hred, hrun]
      cases fullFlow <;> rfl
    · intro hff
      subst hff
      rw [hred, hrun]
      exact ⟨rfl, by simp [storeDelete]⟩
    · intro tf hff
      subst hff
      rw [hred, hrun]
      exact ⟨rfl, by simp [storeSet]⟩
  · intro hfar
    simp only [ensureAuthenticatedExternal, hstored]
    rw [if_neg hfar]

/-- C7 witness: the stored fixture refreshed with a response granting 350
seconds of validity. -/
theorem ensureAuthenticatedExternal_refresh_witness :
    cexStore ("tokens:" ++ "https://ex.com") = some cexToken ∧
    (ensureAuthenticatedExternal 1000000000 (.ok wexResp) (.error ()) cexStore
      "https://ex.com" cexCaps).refreshCalls = 1 :=
  ⟨by decide,
   ((ensureAuthenticatedExternal_refresh 1000000000 (.ok wexResp) (.error ()) cexStore
      "https://ex.com" cexCaps cexToken "https://ex.com/token" "c" "s"
      (by decide) (by decide) (by decide) (by decide) (by decide) (by decide)
      (by decide)).1 wexResp (by decide) rfl (by decide)).1⟩

end Mcpz
